import Mathlib

/-!
Verification of the input-binding engine of `src/useFormState.js`
(react-use-form-state).

The JavaScript source is shallowly embedded: the form state is a record of
string-keyed maps, DOM events are records, and each handler or getter of the
property bag becomes a pure function from the pre-handler state snapshot to
the post-handler state together with a trace of the hook invocations it
performed.  The repository ships only `src/useFormState.js`; its collaborators
(`utils.js`, `useState.js`, `useCache.js`, `constants.js`) are modelled from
the specification where they decide behaviour, as marked in doc comments.
In particular, per the specification of the state store, `current` is the
per-event-cycle snapshot and the setters merge partial updates that become
visible only after the handler completes, so every read inside a handler
observes the pre-handler snapshot.
-/

namespace UseFormState

/-- The universe of JavaScript values the engine manipulates: `undefined`,
`null`, booleans, strings, and the string arrays used for checkbox groups and
select-multiple fields. -/
inductive JSValue where
  | undef : JSValue
  | nullv : JSValue
  | bool (b : Bool) : JSValue
  | str (s : String) : JSValue
  | arr (l : List String) : JSValue
deriving DecidableEq

/-- Modelled from the spec: `toString` from `src/utils.js`, which is not under
`src/`.  The spec calls it stringification; it is JavaScript `String(v)` with
`null`/`undefined` mapped to the empty string. -/
def jsToString : JSValue → String
  | .undef => ""
  | .nullv => ""
  | .bool b => if b then "true" else "false"
  | .str s => s
  | .arr l => String.intercalate "," l

/-- JavaScript truthiness of a `JSValue` (used by `values[name] || false`). -/
def truthy : JSValue → Bool
  | .undef => false
  | .nullv => false
  | .bool b => b
  | .str s => !s.isEmpty
  | .arr _ => true

/-- JavaScript `a || b`. -/
def jsOr (a b : JSValue) : JSValue := if truthy a then a else b

/-- Modelled from the spec: the field-type tags from `src/constants.js`, which
is not under `src/`.  Only their pairwise distinctness matters. -/
def CHECKBOX : String := "checkbox"

/-- Field-type tag for radio inputs. -/
def RADIO : String := "radio"

/-- Field-type tag for single selects. -/
def SELECT : String := "select"

/-- Field-type tag for multiple selects. -/
def SELECT_MULTIPLE : String := "selectMultiple"

/-- Field-type tag for textareas. -/
def TEXTAREA : String := "textarea"

/-- Modelled from the spec: cache-key tag from `src/constants.js` used when
caching a field's onChange handler (the source pairs the onChange handler with
the `ON_BLUR_HANDLER` tag and vice versa; only distinctness matters). -/
def ON_BLUR_HANDLER : String := "onBlurHandler"

/-- Cache-key tag paired with the onBlur handler in the source. -/
def ON_CHANGE_HANDLER : String := "onChangeHandler"

/-- Pointwise update of a string-keyed map, the shallow embedding of merging
the one-key partial `{ [name]: v }` into a map. -/
def mapSet {α : Type} (m : String → α) (k : String) (v : α) : String → α :=
  fun x => if x = k then v else m x

/-- Modelled from the spec: the state store of `src/useState.js`, which is not
under `src/`.  `values` uses `JSValue.undef` for absent keys (matching the
source's `!== undefined` checks), `touched` defaults to `false`, and `validity`
and `errors` use `none` for absent keys (the spec: an absent `errors` key means
no error, an absent `validity` key means no validation has run). -/
structure FormState where
  values : String → JSValue
  touched : String → Bool
  validity : String → Option Bool
  errors : String → Option JSValue

/-- The state of a freshly mounted form with no initial values. -/
def emptyState : FormState :=
  { values := fun _ => JSValue.undef
    touched := fun _ => false
    validity := fun _ => none
    errors := fun _ => none }

/-- One entry of a select element's option list. -/
structure SelectOption where
  value : String
  selected : Bool
deriving DecidableEq

/-- The part of a DOM event target the engine reads: `value`, `checked`, the
native constraint-validation verdict `validity.valid`, `validationMessage`,
and the option list of a select element. -/
structure EventTarget where
  value : String
  checked : Bool
  validityValid : Bool
  validationMessage : String
  options : List SelectOption
deriving DecidableEq

/-- A DOM change/blur event as the engine sees it. -/
structure Event where
  target : EventTarget
deriving DecidableEq

/-- The argument of the validation routine: either a bare string (programmatic
validation) or a real UI event; the source discriminates with `isString(e)`. -/
inductive ValidateInput where
  | str (s : String) : ValidateInput
  | ev (e : Event) : ValidateInput
deriving DecidableEq

/-- The `value` the validation routine extracts from its input:
`isString(e) ? e : e.target.value`. -/
def inputValueOf : ValidateInput → String
  | .str s => s
  | .ev e => e.target.value

/-- A per-field custom validator: receives `(value, values, e)` and returns an
arbitrary JavaScript value. -/
def Validator : Type := JSValue → (String → JSValue) → ValidateInput → JSValue

/-- Record of one invocation of a custom validator: the three arguments it was
called with. -/
structure ValidatorCall where
  argValue : JSValue
  argValues : String → JSValue
  argEvent : ValidateInput

/-- Modelled from the spec: `isEmpty` from `src/utils.js`, which is not under
`src/`.  Decides whether `setError` records or removes the error key.  Per the
spec's scenario for a passing native validation (native validity `true`,
`validationMessage` the empty string, resulting in no `errors` key), the empty
string counts as empty alongside `null`/`undefined`. -/
def isEmpty : Option JSValue → Bool
  | none => true
  | some JSValue.undef => true
  | some JSValue.nullv => true
  | some (JSValue.str s) => decide (s = "")
  | some (JSValue.bool _) => false
  | some (JSValue.arr _) => false

/-- The validation routine (`validate`, lines 84-121 of the source) run for
field `name` with a pre-handler snapshot `s`: invokes the custom validator if
configured, else reads the native constraint-validation state of a real event,
else treats a bare string as unconditionally valid (the source's dev-only
console warning is not modelled); then commits `validity[name]` and sets or
removes `errors[name]` via `isEmpty`.  Returns the updated state and a record
of the custom-validator invocation, if any. -/
def runValidate (validateFn : Option Validator) (name : String)
    (input : ValidateInput) (values : String → JSValue) (s : FormState) :
    FormState × Option ValidatorCall :=
  let value := inputValueOf input
  match validateFn with
  | some f =>
      let result := f (JSValue.str value) values input
      let call : ValidatorCall := ⟨JSValue.str value, values, input⟩
      if result = JSValue.bool true ∨ result = JSValue.nullv ∨ result = JSValue.undef then
        ({ s with validity := mapSet s.validity name (some true)
                  errors := mapSet s.errors name none }, some call)
      else
        let err : JSValue := if result = JSValue.bool false then JSValue.str "" else result
        ({ s with validity := mapSet s.validity name (some false)
                  errors := mapSet s.errors name
                    (if isEmpty (some err) then none else some err) }, some call)
  | none =>
      match input with
      | .ev e =>
          let err := JSValue.str e.target.validationMessage
          ({ s with validity := mapSet s.validity name (some e.target.validityValid)
                    errors := mapSet s.errors name
                      (if isEmpty (some err) then none else some err) }, none)
      | .str _ =>
          ({ s with validity := mapSet s.validity name (some true)
                    errors := mapSet s.errors name none }, none)

/-- The per-field configuration of one binding request: the field type tag,
name, intrinsic own value, and the recognized input options.  The per-field
`onChange` hook returns its optional override (`JSValue.undef` models a hook
that returns nothing, such as the default no-op). -/
structure FieldCfg where
  type : String
  name : String
  ownValue : JSValue
  validateFn : Option Validator
  validateOnBlur : Bool
  touchedOnChange : Bool
  inputOnChange : Event → JSValue

/-- `getNextCheckboxValue` (lines 62-74): without an own value the raw
`checked` boolean; with an own value the current checked-values array read
from the snapshot, deduplicated as a JS `Set` (first occurrence kept,
insertion order preserved), with `e.target.value` added or deleted according
to `e.target.checked`.  A stored value that is neither an array nor undefined
is the source's noted unhandled mixed-mode case and is treated as the empty
set here. -/
def jsSetAdd (l : List String) (v : String) : List String :=
  if v ∈ l then l else l ++ [v]

/-- Deduplication performed by `new Set(list)`: first occurrences, in order. -/
def jsSetOfList (l : List String) : List String :=
  l.foldl jsSetAdd []

/-- The string list stored in a `JSValue`; `undefined` gives the empty list
(`new Set(undefined)` is empty). -/
def asStringList : JSValue → List String
  | .arr l => l
  | _ => []

/-- The next checkbox value computed from the snapshot value and the event. -/
def getNextCheckboxValue (ownValue stored : JSValue) (e : Event) : JSValue :=
  if jsToString ownValue = "" then JSValue.bool e.target.checked
  else
    let checkedValues := jsSetOfList (asStringList stored)
    if e.target.checked then JSValue.arr (jsSetAdd checkedValues e.target.value)
    else JSValue.arr (checkedValues.filter (fun x => x ≠ e.target.value))

/-- `getNextSelectMultipleValue` (lines 76-82): the values of the currently
selected options, in option-list order (the source's `reduce` appends each
selected option's value). -/
def getNextSelectMultipleValue (e : Event) : JSValue :=
  JSValue.arr ((e.target.options.filter (fun o => o.selected)).map (fun o => o.value))

/-- Trace of one onChange-handler invocation: the arguments passed to the
form-level `onChange` hook, the values map handed to validation (when change
validation ran), the custom-validator invocation (if any), and whether the
form-level `onTouched` hook fired. -/
structure ChangeTrace where
  formHookEvent : Event
  formHookPrev : String → JSValue
  formHookNext : String → JSValue
  validateValuesArg : Option (String → JSValue)
  validatorCall : Option ValidatorCall
  onTouchedFired : Bool

/-- The cached onChange handler (lines 177-205): marks the field dirty,
invokes the per-field onChange hook capturing an optional override, computes
the candidate value (override if non-null else the raw text value, then
unconditionally replaced for checkbox and select-multiple), invokes the
form-level onChange hook with `(e, previous values, merged values)`, validates
against the merged values unless `validateOnBlur`, touches if
`touchedOnChange`, and finally commits the merged values.  All reads use the
pre-handler snapshot `s`. -/
def onChangeHandler (cfg : FieldCfg) (s : FormState) (d : String → Bool) (e : Event) :
    FormState × (String → Bool) × ChangeTrace :=
  let d1 := mapSet d cfg.name true
  let hasCustomValue := cfg.inputOnChange e
  let value0 : JSValue :=
    if hasCustomValue = JSValue.undef ∨ hasCustomValue = JSValue.nullv then
      JSValue.str e.target.value
    else hasCustomValue
  let value1 :=
    if cfg.type = CHECKBOX then getNextCheckboxValue cfg.ownValue (s.values cfg.name) e
    else value0
  let value2 :=
    if cfg.type = SELECT_MULTIPLE then getNextSelectMultipleValue e
    else value1
  let newValues := mapSet s.values cfg.name value2
  let vres :=
    if cfg.validateOnBlur = false then
      runValidate cfg.validateFn cfg.name (ValidateInput.ev e) newValues s
    else (s, none)
  let s1 := vres.1
  let touched2 :=
    if cfg.touchedOnChange then
      (if s.touched cfg.name then s1.touched else mapSet s1.touched cfg.name true)
    else s1.touched
  let s3 : FormState :=
    { values := newValues, touched := touched2, validity := s1.validity
      errors := s1.errors }
  (s3, d1,
    { formHookEvent := e
      formHookPrev := s.values
      formHookNext := newValues
      validateValuesArg := if cfg.validateOnBlur = false then some newValues else none
      validatorCall := vres.2
      onTouchedFired := cfg.touchedOnChange && !s.touched cfg.name })

/-- Trace of one onBlur-handler invocation. -/
structure BlurTrace where
  validated : Bool
  validatorCall : Option ValidatorCall
  onTouchedFired : Bool

/-- The cached onBlur handler (lines 206-220): touches the field, then
validates exactly when the field was not already touched in the pre-handler
snapshot or is marked dirty, resetting the dirty flag when it validates. -/
def onBlurHandler (cfg : FieldCfg) (s : FormState) (d : String → Bool) (e : Event) :
    FormState × (String → Bool) × BlurTrace :=
  let touched1 :=
    if s.touched cfg.name then s.touched else mapSet s.touched cfg.name true
  let s1 : FormState := { s with touched := touched1 }
  if s.touched cfg.name = false ∨ d cfg.name = true then
    let vres := runValidate cfg.validateFn cfg.name (ValidateInput.ev e) s.values s1
    (vres.1, mapSet d cfg.name false, ⟨true, vres.2, !s.touched cfg.name⟩)
  else
    (s1, d, ⟨false, none, !s.touched cfg.name⟩)

/-- `setInitialValue` (lines 47-60): the type-correct default written on the
first value read: `''`, except `[]`/`false` for a checkbox with/without an own
value and `[]` for select-multiple. -/
def setInitialValue (type : String) (ownValue : JSValue) : JSValue :=
  if type = CHECKBOX then
    (if jsToString ownValue = "" then JSValue.bool false else JSValue.arr [])
  else if type = SELECT_MULTIPLE then JSValue.arr []
  else JSValue.str ""

/-- The `value` getter (lines 162-176): lazily initializes `values[name]` when
it is undefined, then returns the stringified own value for checkbox/radio and
otherwise the snapshot value (or `''` when none existed).  Returns the pair of
the produced DOM value and the resulting state. -/
def valueRead (type name : String) (ownValue : JSValue) (s : FormState) :
    JSValue × FormState :=
  let s1 :=
    if s.values name = JSValue.undef then
      { s with values := mapSet s.values name (setInitialValue type ownValue) }
    else s
  let out :=
    if type = CHECKBOX ∨ type = RADIO then JSValue.str (jsToString ownValue)
    else if s.values name = JSValue.undef then JSValue.str ""
    else s.values name
  (out, s1)

/-- The `checked` getter (lines 142-161): strict comparison with the
stringified own value for radio, `values[name] || false` for a bare checkbox,
membership of the stringified own value for a checkbox with an own value
(`false` without initialization when no value exists; a non-array stored value
is the source's noted unhandled mixed-mode case), and `undefined` for every
other type.  It performs no writes, so the state is returned unchanged. -/
def checkedRead (type name : String) (ownValue : JSValue) (s : FormState) :
    JSValue × FormState :=
  let out :=
    if type = RADIO then
      JSValue.bool (decide (s.values name = JSValue.str (jsToString ownValue)))
    else if type = CHECKBOX then
      (if jsToString ownValue = "" then jsOr (s.values name) (JSValue.bool false)
       else if s.values name = JSValue.undef then JSValue.bool false
       else JSValue.bool ((asStringList (s.values name)).contains (jsToString ownValue)))
    else JSValue.undef
  (out, s)

/-- One operation of the binding engine on the shared form state: a change
event, a blur event, or a read of the `value` or `checked` property. -/
inductive Op where
  | change (cfg : FieldCfg) (e : Event) : Op
  | blur (cfg : FieldCfg) (e : Event) : Op
  | readValue (type name : String) (ownValue : JSValue) : Op
  | readChecked (type name : String) (ownValue : JSValue) : Op

/-- The effect of one operation on the form state and the dirty map. -/
def applyOp : Op → FormState × (String → Bool) → FormState × (String → Bool)
  | .change cfg e, (s, d) =>
      ((onChangeHandler cfg s d e).1, (onChangeHandler cfg s d e).2.1)
  | .blur cfg e, (s, d) =>
      ((onBlurHandler cfg s d e).1, (onBlurHandler cfg s d e).2.1)
  | .readValue type name ownValue, (s, d) => ((valueRead type name ownValue s).2, d)
  | .readChecked type name ownValue, (s, d) => ((checkedRead type name ownValue s).2, d)

/-- Well-formedness of a DOM event, guaranteed by the browser's constraint
validation API: a target that satisfies its constraints reports the empty
validation message. -/
def eventWF (e : Event) : Prop :=
  e.target.validityValid = true → e.target.validationMessage = ""

/-- Well-formedness of an operation: its event, if any, is a real DOM event. -/
def opWF : Op → Prop
  | .change _ e => eventWF e
  | .blur _ e => eventWF e
  | .readValue _ _ _ => True
  | .readChecked _ _ _ => True

/-- The data-model direction that survives on the code: an `errors` key is
present only for a field whose recorded validity is `false`. -/
def errorsInv (s : FormState) : Prop :=
  ∀ n, s.errors n ≠ none → s.validity n = some false

/-- Modelled from the spec: the memoizing cache of `src/useCache.js`, which is
not under `src/`, with get-or-create semantics.  Cached handler closures are
represented by the numeric identity they receive at creation. -/
structure Cache where
  entries : String → Option Nat
  nextId : Nat

/-- `getOrSet(key, factory)`: return the cached value, else store and return a
fresh one. -/
def getOrSet (c : Cache) (k : String) : Nat × Cache :=
  match c.entries k with
  | some v => (v, c)
  | none =>
      (c.nextId, { entries := mapSet c.entries k (some c.nextId), nextId := c.nextId + 1 })

/-- The cache key of a binding request (line 45). -/
def handlerKey (type name : String) (ownValue : JSValue) : String :=
  type ++ "." ++ name ++ "." ++ jsToString ownValue

/-- The handler-caching part of one binding request (lines 177 and 206): the
onChange handler is cached under `ON_BLUR_HANDLER + key` and the onBlur
handler under `ON_CHANGE_HANDLER + key`, exactly as in the source.  Returns
the identities of the two handlers in the produced property bag. -/
def bindHandlers (type name : String) (ownValue : JSValue) (c : Cache) :
    (Nat × Nat) × Cache :=
  let k := handlerKey type name ownValue
  let r1 := getOrSet c (ON_BLUR_HANDLER ++ k)
  let r2 := getOrSet r1.2 (ON_CHANGE_HANDLER ++ k)
  ((r1.1, r2.1), r2.2)

/-- A checkbox change event: DOM value `"red"`, now checked, natively valid. -/
def exEventChk : Event := ⟨⟨"red", true, true, "", []⟩⟩

/-- A checkbox field whose per-field onChange hook returns the non-null
override `"X"`. -/
def cfgOverride : FieldCfg :=
  ⟨CHECKBOX, "opt", JSValue.str "red", none, false, false, fun _ => JSValue.str "X"⟩

/-- A custom validator that always returns exactly `false`. -/
def validatorFalse : Validator := fun _ _ _ => JSValue.bool false

/-- A custom validator that always returns exactly `true`. -/
def validatorTrue : Validator := fun _ _ _ => JSValue.bool true

/-- A checkbox field with a custom validator and change-time validation. -/
def cfgChk : FieldCfg :=
  ⟨CHECKBOX, "opt", JSValue.str "red", some validatorTrue, false, false,
    fun _ => JSValue.undef⟩

/-- A text field with a custom validator that always fails with `false`. -/
def cfgTextFalse : FieldCfg :=
  ⟨"text", "f", JSValue.undef, some validatorFalse, false, false,
    fun _ => JSValue.undef⟩

theorem mapSet_same {α : Type} (m : String → α) (k : String) (v : α) :
    mapSet m k v k = v := by
  simp [mapSet]

theorem mapSet_ne {α : Type} (m : String → α) (k x : String) (v : α) (h : x ≠ k) :
    mapSet m k v x = m x := by
  simp [mapSet, h]

theorem runValidate_fst_touched (vf : Option Validator) (name : String)
    (input : ValidateInput) (values : String → JSValue) (s : FormState) :
    (runValidate vf name input values s).1.touched = s.touched := by
  unfold runValidate
  cases vf with
  | some f =>
      dsimp only
      split <;> rfl
  | none => cases input <;> rfl

theorem runValidate_call (f : Validator) (name : String) (input : ValidateInput)
    (values : String → JSValue) (s : FormState) :
    (runValidate (some f) name input values s).2 =
      some ⟨JSValue.str (inputValueOf input), values, input⟩ := by
  unfold runValidate
  dsimp only
  split <;> rfl

theorem setInitialValue_ne_undef (type : String) (ownValue : JSValue) :
    setInitialValue type ownValue ≠ JSValue.undef := by
  intro h
  unfold setInitialValue at h
  split at h
  · split at h <;> exact JSValue.noConfusion h
  · split at h <;> exact JSValue.noConfusion h

/-- Claim C1, counterexample: on a checkbox whose per-field onChange hook
returns the non-null override `"X"`, the committed value is the recomputed
checked-values array `["red"]`, not the override the claim mandates. -/
theorem c1_override_ignored_counterexample :
    cfgOverride.inputOnChange exEventChk ≠ JSValue.undef
    ∧ cfgOverride.inputOnChange exEventChk ≠ JSValue.nullv
    ∧ (onChangeHandler cfgOverride emptyState (fun _ => false) exEventChk).1.values "opt"
        ≠ cfgOverride.inputOnChange exEventChk
    ∧ (onChangeHandler cfgOverride emptyState (fun _ => false) exEventChk).1.values "opt"
        = JSValue.arr ["red"] := by
  refine ⟨by decide, by decide, by decide, by decide⟩

/-- Claim C1 (amended): the candidate new value committed by an onChange
invocation is, with this precedence: for select-multiple always the recomputed
selected-options array; for checkbox always the recomputed checked-values
array (own-value toggled in or out of the current set, or the raw checked
boolean when there is no own-value) — in both cases regardless of any
override returned by the per-field onChange hook; for every other type the
hook's override when it is non-null, and otherwise the raw event's text
value. -/
theorem c1_change_value_precedence (cfg : FieldCfg) (s : FormState)
    (d : String → Bool) (e : Event) :
    (onChangeHandler cfg s d e).1.values cfg.name =
      (if cfg.type = SELECT_MULTIPLE then getNextSelectMultipleValue e
       else if cfg.type = CHECKBOX then
         getNextCheckboxValue cfg.ownValue (s.values cfg.name) e
       else if cfg.inputOnChange e = JSValue.undef
           ∨ cfg.inputOnChange e = JSValue.nullv then
         JSValue.str e.target.value
       else cfg.inputOnChange e) := by
  show mapSet s.values cfg.name _ cfg.name = _
  rw [mapSet_same]

/-- Claim C5: the form-level onChange hook receives the event, the pre-commit
values map, and the merged next-values map; the committed post-state values
are exactly that merged map (single-key merge), and change-triggered
validation, when it runs, is handed the same prospective merged map. -/
theorem c5_onchange_hook_ordering (cfg : FieldCfg) (s : FormState)
    (d : String → Bool) (e : Event) :
    (onChangeHandler cfg s d e).2.2.formHookEvent = e
    ∧ (onChangeHandler cfg s d e).2.2.formHookPrev = s.values
    ∧ (onChangeHandler cfg s d e).2.2.formHookNext = (onChangeHandler cfg s d e).1.values
    ∧ (onChangeHandler cfg s d e).1.values =
        mapSet s.values cfg.name ((onChangeHandler cfg s d e).1.values cfg.name)
    ∧ (onChangeHandler cfg s d e).2.2.validateValuesArg =
        (if cfg.validateOnBlur = false then
          some ((onChangeHandler cfg s d e).2.2.formHookNext)
         else none) := by
  refine ⟨rfl, rfl, rfl, ?_, rfl⟩
  funext x
  show mapSet s.values cfg.name _ x = mapSet s.values cfg.name (mapSet s.values cfg.name _ cfg.name) x
  rw [mapSet_same]

/-- Claim C6: reading the `value` property when `values[name]` is undefined
initializes it to the type-correct default (`''` for text-like fields,
`false` for a bare checkbox, `[]` for a checkbox with an own value and for
select-multiple) and changes nothing else; reading it again afterwards (and
any read on an already-initialized field) leaves the state unchanged. -/
theorem c6_value_lazy_init (type name : String) (ownValue : JSValue) (s : FormState) :
    (valueRead type name ownValue s).2 =
      (if s.values name = JSValue.undef then
        { s with values := (mapSet s.values name
            (if type = CHECKBOX then
              (if jsToString ownValue = "" then JSValue.bool false else JSValue.arr [])
             else if type = SELECT_MULTIPLE then JSValue.arr []
             else JSValue.str "")) }
       else s)
    ∧ (valueRead type name ownValue (valueRead type name ownValue s).2).2 =
        (valueRead type name ownValue s).2 := by
  constructor
  · rfl
  · by_cases h : s.values name = JSValue.undef
    · have h1 : (valueRead type name ownValue s).2 =
          { s with values := mapSet s.values name (setInitialValue type ownValue) } := by
        simp [valueRead, h]
      rw [h1]
      have h2 : ({ s with values := mapSet s.values name (setInitialValue type ownValue) }
          : FormState).values name ≠ JSValue.undef := by
        show mapSet s.values name (setInitialValue type ownValue) name ≠ JSValue.undef
        rw [mapSet_same]
        exact setInitialValue_ne_undef type ownValue
      simp [valueRead, h2]
    · simp [valueRead, h]

/-- Claim C7: for a checkbox with an own value, reading `checked` when
`values[name]` is undefined yields `false` and leaves the entire form state
unchanged — no lazy initialization happens on a `checked` read. -/
theorem c7_checked_no_init (name : String) (ownValue : JSValue) (s : FormState)
    (hov : jsToString ownValue ≠ "") (hv : s.values name = JSValue.undef) :
    checkedRead CHECKBOX name ownValue s = (JSValue.bool false, s) := by
  unfold checkedRead
  have hcr : ¬ (CHECKBOX = RADIO) := by decide
  simp [hcr, hov, hv]

/-- Claim C7 witness: the theorem applied to a fresh form and the checkbox
`"opt"` with own value `"red"`. -/
theorem c7_checked_no_init_witness :
    jsToString (JSValue.str "red") ≠ "" ∧ emptyState.values "opt" = JSValue.undef
    ∧ checkedRead CHECKBOX "opt" (JSValue.str "red") emptyState =
        (JSValue.bool false, emptyState) :=
  ⟨by decide, rfl,
    c7_checked_no_init "opt" (JSValue.str "red") emptyState (by decide) rfl⟩

/-- Claim C9, counterexample: for a radio bound with no own value over a fresh
form, `values[name]` and the own value stringify to the same string (both
empty), yet `checked` is `false` — the source compares the stored value
unstringified. -/
theorem c9_radio_checked_counterexample :
    ¬ ((checkedRead RADIO "r" JSValue.undef emptyState).1 = JSValue.bool true
        ↔ jsToString (emptyState.values "r") = jsToString JSValue.undef) := by
  decide

/-- Claim C9 (amended): for a radio field, `checked` is `true` iff the stored
`values[name]` is exactly the string obtained by stringifying the own value
(strict comparison; the stored value itself is not stringified). -/
theorem c9_radio_checked_strict (name : String) (ownValue : JSValue) (s : FormState) :
    (checkedRead RADIO name ownValue s).1 = JSValue.bool true
      ↔ s.values name = JSValue.str (jsToString ownValue) := by
  unfold checkedRead
  simp

/-- Claim C4: a blur validates iff the field was untouched in the pre-handler
snapshot or is dirty — so the first blur always validates regardless of the
dirty flag — a blur that validates resets the dirty flag (and after any blur
the dirty flag is down), and a second blur with no intervening change event
never re-validates. -/
theorem c4_blur_validation (cfg : FieldCfg) (s : FormState) (d : String → Bool)
    (e e2 : Event) :
    ((onBlurHandler cfg s d e).2.2.validated = true
      ↔ (s.touched cfg.name = false ∨ d cfg.name = true))
    ∧ (onBlurHandler cfg s d e).2.1 =
        (if s.touched cfg.name = false ∨ d cfg.name = true then
          mapSet d cfg.name false
         else d)
    ∧ (onBlurHandler cfg (onBlurHandler cfg s d e).1
        ((onBlurHandler cfg s d e).2.1) e2).2.2.validated = false := by
  have htv : ∀ e' : Event, (onBlurHandler cfg s d e').1.touched cfg.name = true := by
    intro e'
    unfold onBlurHandler
    dsimp only
    split
    · rw [runValidate_fst_touched]
      show (if s.touched cfg.name then s.touched else mapSet s.touched cfg.name true)
          cfg.name = true
      by_cases ht : s.touched cfg.name = true
      · simp [ht]
      · simp only [Bool.not_eq_true] at ht
        simp [ht, mapSet_same]
    · show (if s.touched cfg.name then s.touched else mapSet s.touched cfg.name true)
          cfg.name = true
      by_cases ht : s.touched cfg.name = true
      · simp [ht]
      · simp only [Bool.not_eq_true] at ht
        simp [ht, mapSet_same]
  have hdrop : (onBlurHandler cfg s d e).2.1 cfg.name = false := by
    unfold onBlurHandler
    dsimp only
    split
    · exact mapSet_same ..
    · rename_i hcond
      push_neg at hcond
      simp only [Bool.not_eq_false, Bool.not_eq_true] at hcond
      exact hcond.2
  refine ⟨?_, ?_, ?_⟩
  · unfold onBlurHandler
    dsimp only
    split
    · rename_i hcond
      simpa using hcond
    · rename_i hcond
      simpa using hcond
  · unfold onBlurHandler
    dsimp only
    split
    · rfl
    · rfl
  · have h2 := htv e
    conv_lhs => rw [onBlurHandler]
    dsimp only
    rw [if_neg]
    rw [h2, hdrop]
    simp

theorem getOrSet_entries_self (c : Cache) (k : String) :
    (getOrSet c k).2.entries k = some (getOrSet c k).1 := by
  unfold getOrSet
  cases h : c.entries k <;> simp [h, mapSet]

theorem getOrSet_entries_ne (c : Cache) (k k' : String) (h : k' ≠ k) :
    (getOrSet c k).2.entries k' = c.entries k' := by
  unfold getOrSet
  cases hc : c.entries k <;> simp [hc, mapSet, h]

theorem getOrSet_of_mem (c : Cache) (k : String) (v : Nat)
    (h : c.entries k = some v) : getOrSet c k = (v, c) := by
  unfold getOrSet
  rw [h]

theorem key_tags_ne (k : String) : ON_CHANGE_HANDLER ++ k ≠ ON_BLUR_HANDLER ++ k := by
  intro h
  have hl := congrArg String.length h
  rw [String.length_append, String.length_append] at hl
  have h1 : (ON_CHANGE_HANDLER : String).length = 15 := rfl
  have h2 : (ON_BLUR_HANDLER : String).length = 13 := rfl
  rw [h1, h2] at hl
  omega

theorem getOrSet_pair_stable (c : Cache) (k1 k2 : String) (h : k1 ≠ k2) :
    (getOrSet (getOrSet (getOrSet c k1).2 k2).2 k1).1 = (getOrSet c k1).1
    ∧ (getOrSet (getOrSet (getOrSet (getOrSet c k1).2 k2).2 k1).2 k2).1 =
        (getOrSet (getOrSet c k1).2 k2).1 := by
  have e1 : (getOrSet (getOrSet c k1).2 k2).2.entries k1 = some (getOrSet c k1).1 := by
    rw [getOrSet_entries_ne _ _ _ h]
    exact getOrSet_entries_self ..
  have e2 : (getOrSet (getOrSet c k1).2 k2).2.entries k2 =
      some (getOrSet (getOrSet c k1).2 k2).1 := getOrSet_entries_self ..
  have g1 := getOrSet_of_mem _ _ _ e1
  refine ⟨by rw [g1], ?_⟩
  rw [g1]
  show (getOrSet (getOrSet (getOrSet c k1).2 k2).2 k2).1 =
      (getOrSet (getOrSet c k1).2 k2).1
  rw [getOrSet_of_mem _ _ _ e2]

/-- Claim C8: two consecutive binding requests for the same
`(type, name, ownValue)` triple hand back the identical cached onChange and
onBlur handlers (identity modelled by the numeric id assigned at creation). -/
theorem c8_handler_identity (type name : String) (ownValue : JSValue) (c : Cache) :
    (bindHandlers type name ownValue (bindHandlers type name ownValue c).2).1 =
      (bindHandlers type name ownValue c).1 := by
  have hne : ON_BLUR_HANDLER ++ handlerKey type name ownValue
      ≠ ON_CHANGE_HANDLER ++ handlerKey type name ownValue :=
    Ne.symm (key_tags_ne (handlerKey type name ownValue))
  have h := getOrSet_pair_stable c (ON_BLUR_HANDLER ++ handlerKey type name ownValue)
    (ON_CHANGE_HANDLER ++ handlerKey type name ownValue) hne
  show ((getOrSet (getOrSet (getOrSet c
        (ON_BLUR_HANDLER ++ handlerKey type name ownValue)).2
        (ON_CHANGE_HANDLER ++ handlerKey type name ownValue)).2
        (ON_BLUR_HANDLER ++ handlerKey type name ownValue)).1,
      (getOrSet (getOrSet (getOrSet (getOrSet c
        (ON_BLUR_HANDLER ++ handlerKey type name ownValue)).2
        (ON_CHANGE_HANDLER ++ handlerKey type name ownValue)).2
        (ON_BLUR_HANDLER ++ handlerKey type name ownValue)).2
        (ON_CHANGE_HANDLER ++ handlerKey type name ownValue)).1) =
      ((getOrSet c (ON_BLUR_HANDLER ++ handlerKey type name ownValue)).1,
       (getOrSet (getOrSet c (ON_BLUR_HANDLER ++ handlerKey type name ownValue)).2
        (ON_CHANGE_HANDLER ++ handlerKey type name ownValue)).1)
  rw [h.1, h.2]

theorem isEmpty_some_false (v : JSValue) (h1 : v ≠ JSValue.undef)
    (h2 : v ≠ JSValue.nullv) (h3 : v ≠ JSValue.str "") :
    isEmpty (some v) = false := by
  cases v with
  | undef => exact absurd rfl h1
  | nullv => exact absurd rfl h2
  | bool b => rfl
  | arr l => rfl
  | str s =>
      have hs : s ≠ "" := fun hh => h3 (by rw [hh])
      simp [isEmpty, hs]

/-- Claim C2, counterexample: a custom validator returning exactly `false`
yields `validity[name] = false` but leaves no `errors` key at all — the
recorded payload is not the empty string the claim mandates. -/
theorem c2_false_return_counterexample :
    (runValidate (some validatorFalse) "f" (ValidateInput.str "v")
        emptyState.values emptyState).1.errors "f" ≠ some (JSValue.str "")
    ∧ (runValidate (some validatorFalse) "f" (ValidateInput.str "v")
        emptyState.values emptyState).1.errors "f" = none
    ∧ (runValidate (some validatorFalse) "f" (ValidateInput.str "v")
        emptyState.values emptyState).1.validity "f" = some false := by
  refine ⟨by decide, by decide, by decide⟩

/-- Claim C2 (amended): with a configured custom validator, the validation
routine invokes it with `(value, values, event)`; a return of exactly `true`
or of `null`/`undefined` yields `validity[name] = true` with the error key
removed; any other return yields `validity[name] = false`, and the returned
value is recorded in `errors[name]` when it is neither exactly `false` nor
the empty string — when it is exactly `false` or the empty string, no error
is recorded (the key is removed) even though the field is invalid. -/
theorem c2_custom_validator (f : Validator) (name : String) (input : ValidateInput)
    (values : String → JSValue) (s : FormState) :
    (runValidate (some f) name input values s).2 =
      some ⟨JSValue.str (inputValueOf input), values, input⟩
    ∧ (runValidate (some f) name input values s).1.validity name =
        (if f (JSValue.str (inputValueOf input)) values input = JSValue.bool true
            ∨ f (JSValue.str (inputValueOf input)) values input = JSValue.nullv
            ∨ f (JSValue.str (inputValueOf input)) values input = JSValue.undef
         then some true else some false)
    ∧ (runValidate (some f) name input values s).1.errors name =
        (if f (JSValue.str (inputValueOf input)) values input = JSValue.bool true
            ∨ f (JSValue.str (inputValueOf input)) values input = JSValue.nullv
            ∨ f (JSValue.str (inputValueOf input)) values input = JSValue.undef
         then none
         else if f (JSValue.str (inputValueOf input)) values input = JSValue.bool false
            ∨ f (JSValue.str (inputValueOf input)) values input = JSValue.str ""
         then none
         else some (f (JSValue.str (inputValueOf input)) values input)) := by
  refine ⟨runValidate_call .., ?_, ?_⟩
  · unfold runValidate
    dsimp only
    by_cases hv : f (JSValue.str (inputValueOf input)) values input = JSValue.bool true
        ∨ f (JSValue.str (inputValueOf input)) values input = JSValue.nullv
        ∨ f (JSValue.str (inputValueOf input)) values input = JSValue.undef
    · rw [if_pos hv, if_pos hv]
      exact mapSet_same ..
    · rw [if_neg hv, if_neg hv]
      exact mapSet_same ..
  · unfold runValidate
    dsimp only
    by_cases hv : f (JSValue.str (inputValueOf input)) values input = JSValue.bool true
        ∨ f (JSValue.str (inputValueOf input)) values input = JSValue.nullv
        ∨ f (JSValue.str (inputValueOf input)) values input = JSValue.undef
    · rw [if_pos hv, if_pos hv]
      exact mapSet_same ..
    · rw [if_neg hv, if_neg hv]
      push_neg at hv
      by_cases hf : f (JSValue.str (inputValueOf input)) values input = JSValue.bool false
      · rw [if_pos (Or.inl hf), if_pos hf]
        exact (mapSet_same ..).trans rfl
      · by_cases hsv : f (JSValue.str (inputValueOf input)) values input = JSValue.str ""
        · rw [if_pos (Or.inr hsv), hsv]
          exact (mapSet_same ..).trans rfl
        · rw [if_neg (show ¬ (f (JSValue.str (inputValueOf input)) values input
              = JSValue.bool false
              ∨ f (JSValue.str (inputValueOf input)) values input = JSValue.str "")
            from fun hh => Or.elim hh hf hsv)]
          rw [if_neg hf]
          refine (mapSet_same ..).trans ?_
          rw [isEmpty_some_false _ hv.2.2 hv.2.1 hsv]
          exact if_neg (fun h => Bool.noConfusion h)

theorem errorsInv_of_fields (s t : FormState) (he : s.errors = t.errors)
    (hv : s.validity = t.validity) (h : errorsInv t) : errorsInv s := by
  intro n hn
  rw [he] at hn
  rw [hv]
  exact h n hn

theorem runValidate_errorsInv (vf : Option Validator) (name : String)
    (input : ValidateInput) (values : String → JSValue) (s : FormState)
    (hs : errorsInv s) (hwf : ∀ e, input = ValidateInput.ev e → eventWF e) :
    errorsInv (runValidate vf name input values s).1 := by
  intro n hn
  unfold runValidate at hn ⊢
  cases vf with
  | some f =>
      dsimp only at hn ⊢
      by_cases hv : f (JSValue.str (inputValueOf input)) values input = JSValue.bool true
          ∨ f (JSValue.str (inputValueOf input)) values input = JSValue.nullv
          ∨ f (JSValue.str (inputValueOf input)) values input = JSValue.undef
      · rw [if_pos hv] at hn ⊢
        dsimp only at hn ⊢
        by_cases hname : n = name
        · subst hname
          rw [mapSet_same] at hn
          exact absurd rfl hn
        · rw [mapSet_ne _ _ _ _ hname] at hn
          rw [mapSet_ne _ _ _ _ hname]
          exact hs n hn
      · rw [if_neg hv] at hn ⊢
        dsimp only at hn ⊢
        by_cases hname : n = name
        · subst hname
          rw [mapSet_same]
        · rw [mapSet_ne _ _ _ _ hname] at hn
          rw [mapSet_ne _ _ _ _ hname]
          exact hs n hn
  | none =>
      cases input with
      | str v =>
          dsimp only at hn ⊢
          by_cases hname : n = name
          · subst hname
            rw [mapSet_same] at hn
            exact absurd rfl hn
          · rw [mapSet_ne _ _ _ _ hname] at hn
            rw [mapSet_ne _ _ _ _ hname]
            exact hs n hn
      | ev e =>
          dsimp only at hn ⊢
          by_cases hname : n = name
          · subst hname
            rw [mapSet_same] at hn
            rw [mapSet_same]
            by_cases hval : e.target.validityValid = true
            · have hmsg : e.target.validationMessage = "" := hwf e rfl hval
              rw [hmsg] at hn
              simp [isEmpty] at hn
            · simp only [Bool.not_eq_true] at hval
              rw [hval]
          · rw [mapSet_ne _ _ _ _ hname] at hn
            rw [mapSet_ne _ _ _ _ hname]
            exact hs n hn

/-- Claim C3, counterexample: starting from the invariant-satisfying fresh
state, a blur on a field whose custom validator returns exactly `false`
leaves no `errors` key for the field although validation ran and recorded
`validity[name] = false` — refuting the claim that a name absent from
`errors` is either valid or never validated. -/
theorem c3_invariant_counterexample :
    (applyOp (Op.blur cfgTextFalse exEventChk) (emptyState, fun _ => false)).1.errors "f"
      = none
    ∧ (applyOp (Op.blur cfgTextFalse exEventChk) (emptyState, fun _ => false)).1.validity "f"
      = some false := by
  refine ⟨by decide, by decide⟩

/-- Claim C3 (amended): the first half of the claimed invariant is preserved
by every well-formed operation: a name with a key present in `errors` always
has `validity[name] = false`.  The second half fails (see the
counterexample): a validation whose validator returns exactly `false` or the
empty string records `validity[name] = false` while removing the `errors`
key, so an absent key does not imply validity or no validation. -/
theorem c3_errors_imply_invalid (op : Op) (s : FormState) (d : String → Bool)
    (hs : errorsInv s) (hop : opWF op) :
    errorsInv (applyOp op (s, d)).1 := by
  cases op with
  | change cfg e =>
      show errorsInv (onChangeHandler cfg s d e).1
      unfold onChangeHandler
      dsimp only
      by_cases hb : cfg.validateOnBlur = false
      · rw [if_pos hb]
        refine errorsInv_of_fields _ _ rfl rfl ?_
        exact runValidate_errorsInv _ _ _ _ _ hs (fun e' he' => by cases he'; exact hop)
      · rw [if_neg hb]
        exact errorsInv_of_fields _ _ rfl rfl hs
  | blur cfg e =>
      show errorsInv (onBlurHandler cfg s d e).1
      unfold onBlurHandler
      dsimp only
      split
      · refine errorsInv_of_fields _ _ rfl rfl ?_
        refine runValidate_errorsInv _ _ _ _ _ ?_ (fun e' he' => by cases he'; exact hop)
        exact errorsInv_of_fields _ _ rfl rfl hs
      · exact errorsInv_of_fields _ _ rfl rfl hs
  | readValue type name ownValue =>
      show errorsInv (valueRead type name ownValue s).2
      unfold valueRead
      dsimp only
      split
      · exact errorsInv_of_fields _ _ rfl rfl hs
      · exact hs
  | readChecked type name ownValue =>
      exact hs

/-- Claim C3 witness: the fresh state satisfies the invariant and the theorem
applies to a value read on it. -/
theorem c3_errors_imply_invalid_witness :
    errorsInv emptyState
    ∧ errorsInv (applyOp (Op.readValue "text" "a" JSValue.undef)
        (emptyState, fun _ => false)).1 := by
  have h : errorsInv emptyState := fun n hn => absurd rfl hn
  exact ⟨h, c3_errors_imply_invalid _ _ _ h trivial⟩

/-- Claim C10: when change-triggered validation runs for a checkbox or
select-multiple field with a configured custom validator, the validator's
first argument is the event target's raw value string, not the computed next
array value; the prospective merged values map (which holds the array under
the field's name) is passed as the second argument. -/
theorem c10_validator_receives_raw_value (cfg : FieldCfg) (s : FormState)
    (d : String → Bool) (e : Event) (f : Validator)
    (_htype : cfg.type = CHECKBOX ∨ cfg.type = SELECT_MULTIPLE)
    (hf : cfg.validateFn = some f) (hb : cfg.validateOnBlur = false) :
    (onChangeHandler cfg s d e).2.2.validatorCall =
      some ⟨JSValue.str e.target.value, (onChangeHandler cfg s d e).2.2.formHookNext,
        ValidateInput.ev e⟩ := by
  unfold onChangeHandler
  dsimp only
  rw [if_pos hb, hf]
  exact runValidate_call ..

/-- Claim C10 witness: the theorem applied to a concrete checkbox change. -/
theorem c10_validator_receives_raw_value_witness :
    (cfgChk.type = CHECKBOX ∨ cfgChk.type = SELECT_MULTIPLE)
    ∧ cfgChk.validateFn = some validatorTrue
    ∧ cfgChk.validateOnBlur = false
    ∧ (onChangeHandler cfgChk emptyState (fun _ => false) exEventChk).2.2.validatorCall =
        some ⟨JSValue.str exEventChk.target.value,
          (onChangeHandler cfgChk emptyState (fun _ => false) exEventChk).2.2.formHookNext,
          ValidateInput.ev exEventChk⟩ :=
  ⟨Or.inl rfl, rfl, rfl,
    c10_validator_receives_raw_value cfgChk emptyState (fun _ => false) exEventChk
      validatorTrue (Or.inl rfl) rfl rfl⟩

end UseFormState
